import Mathlib

/-
Verification of the ipservice repository (Go): a shallow embedding of the
IP-range resolution engine.  Sources embedded:
  internal/service/rir_service.go   (FetchIPRanges, fetchWithTimeout, parseIPRange, parseCIDR)
  internal/service/ip_service.go    (UpdateIPRanges, LookupIP)
  internal/repository/redis.go      (GetCachedRange, ipToInt)
Stateful Go code is modelled by explicit state passing; functions returning
(value, error) pairs are modelled as products with an Option String error
component; machine integers are Nat/Int with explicit bounds where overflow
matters.  Calls into external systems (HTTP, Redis, Postgres) are modelled as
oracles: the Go service code is written against interfaces, and the claims
quantify over the responses those interfaces may give.
-/

namespace IpService

/-! ## Character-level parsing helpers (models of Go net / strconv parsing) -/

/-- Numeric value of a list of decimal digit characters (Go dtoi accumulation). -/
def digitsVal (cs : List Char) : Nat :=
  cs.foldl (fun a c => a * 10 + (c.toNat - 48)) 0

/-- Model of one dotted-quad component as parsed by Go net.ParseIP / net.ParseCIDR
for IPv4 (Go 1.17+): nonempty, decimal digits only, no leading zero, value at
most 255. -/
def parseOctetChars (cs : List Char) : Option Nat :=
  if cs.isEmpty then none
  else if !(cs.all Char.isDigit) then none
  else if 1 < cs.length && cs.head? == some '0' then none
  else if digitsVal cs ≤ 255 then some (digitsVal cs) else none

/-- Model of the prefix-length part of net.ParseCIDR (Go dtoi): nonempty and
decimal digits only.  The dtoi overflow cap is not modelled; every caller
rejects values above 32 or 128 anyway. -/
def parsePrefixNum (cs : List Char) : Option Nat :=
  if cs.isEmpty then none
  else if !(cs.all Char.isDigit) then none
  else some (digitsVal cs)

/-- Split a character list at a separator character, Go strings.Split style:
the empty list yields one empty field. -/
def splitChar (sep : Char) : List Char → List (List Char)
  | [] => [[]]
  | c :: cs =>
    let rest := splitChar sep cs
    if c = sep then [] :: rest
    else match rest with
      | [] => [[c]]
      | f :: fs => (c :: f) :: fs

/-- Model of Go strings.Split for a one-byte separator, at the string level. -/
def goSplit (sep : Char) (s : String) : List String :=
  (splitChar sep s.data).map (fun cs => String.mk cs)

/-- Split at the first slash, Go byteIndex style: returns the parts before and
after the first occurrence of a slash, or none when there is no slash. -/
def breakAtSlash : List Char → Option (List Char × List Char)
  | [] => none
  | c :: cs =>
    if c = '/' then some ([], cs)
    else match breakAtSlash cs with
      | none => none
      | some (a, b) => some (c :: a, b)

/-- Model of the IPv4 dotted-quad parser of Go net.ParseIP: exactly four
octet components separated by dots.  The result is the big-endian 32-bit
numeric value of the address. -/
def parseIPv4Chars (cs : List Char) : Option Nat :=
  match splitChar '.' cs with
  | [a, b, c, d] =>
    match parseOctetChars a, parseOctetChars b, parseOctetChars c, parseOctetChars d with
    | some x, some y, some z, some w =>
      some (x * 16777216 + y * 65536 + z * 256 + w)
    | _, _, _, _ => none
  | _ => none

/-- Hex value of a hex digit character (Go xtoi). -/
def hexDigitVal (c : Char) : Option Nat :=
  if '0' ≤ c ∧ c ≤ '9' then some (c.toNat - 48)
  else if 'a' ≤ c ∧ c ≤ 'f' then some (c.toNat - 87)
  else if 'A' ≤ c ∧ c ≤ 'F' then some (c.toNat - 55)
  else none

/-- Model of one IPv6 group as parsed by Go net.ParseIP: one to four hex
digits. -/
def parseHexGroupChars (cs : List Char) : Option Nat :=
  if cs.isEmpty || 4 < cs.length then none
  else (cs.mapM hexDigitVal).map (List.foldl (fun a d => a * 16 + d) 0)

/-- Find the first occurrence of a double colon, returning the parts before
and after it. -/
def breakAtDoubleColon : List Char → Option (List Char × List Char)
  | [] => none
  | [_] => none
  | c :: c2 :: cs =>
    if c = ':' ∧ c2 = ':' then some ([], cs)
    else match breakAtDoubleColon (c2 :: cs) with
      | none => none
      | some (a, b) => some (c :: a, b)

/-- Colon-separated groups of one side of an IPv6 literal; an empty side has
no groups. -/
def v6SideGroups (cs : List Char) : List (List Char) :=
  if cs.isEmpty then [] else splitChar ':' cs

/-- Combine IPv6 groups into the 128-bit numeric value, padding with zero
groups in place of a double colon. -/
def v6Value (left right : List Nat) : Nat :=
  let groups := left ++ List.replicate (8 - left.length - right.length) 0 ++ right
  groups.foldl (fun a g => a * 65536 + g) 0

/-- Model of the IPv6 textual parser of Go net.ParseIP, restricted to plain
group syntax: eight colon-separated hex groups, or fewer groups with a single
double colon expanding to at least one zero group.  Zone suffixes and embedded
dotted-quad forms are not modelled; no claim depends on them. -/
def parseIPv6Chars (cs : List Char) : Option Nat :=
  match breakAtDoubleColon cs with
  | none =>
    match (splitChar ':' cs).mapM parseHexGroupChars with
    | some gs => if gs.length = 8 then some (v6Value gs []) else none
    | none => none
  | some (l, r) =>
    match (v6SideGroups l).mapM parseHexGroupChars,
          (v6SideGroups r).mapM parseHexGroupChars with
    | some gl, some gr =>
        if gl.length + gr.length ≤ 7 then some (v6Value gl gr) else none
    | _, _ => none

/-! ## CIDR networks (model of net.IPNet and net.ParseCIDR) -/

/-- Model of net.IPNet: the base address with host bits zeroed, together with
the prefix length, tagged by address family. -/
inductive IPNetwork where
  | v4 (base : Nat) (prefixLen : Nat) : IPNetwork
  | v6 (base : Nat) (prefixLen : Nat) : IPNetwork
deriving DecidableEq, Repr

/-- Prefix length of a network, family-independent. -/
def IPNetwork.prefixLen : IPNetwork → Nat
  | .v4 _ p => p
  | .v6 _ p => p

/-- Model of net.IPNet.Contains for an IPv4 address given by its 32-bit
numeric value: the address masked by the prefix equals the network base.
A v6 network never contains a v4 numeric address in the paths we model. -/
def IPNetwork.containsV4 : IPNetwork → Nat → Bool
  | .v4 base p, a => a / 2 ^ (32 - p) * 2 ^ (32 - p) == base
  | .v6 _ _, _ => false

/-- Model of net.ParseCIDR: split at the first slash, parse the address part
as IPv4 or IPv6, parse the prefix part as a decimal number bounded by the
family bit width, and return the network with host bits zeroed (ParseCIDR
masks the address; it does not require the host bits to be zero). -/
def goParseCIDRChars (cs : List Char) : Option IPNetwork :=
  match breakAtSlash cs with
  | none => none
  | some (addr, maskPart) =>
    match parseIPv4Chars addr with
    | some ip =>
      match parsePrefixNum maskPart with
      | some p => if p ≤ 32 then some (.v4 (ip / 2 ^ (32 - p) * 2 ^ (32 - p)) p) else none
      | none => none
    | none =>
      match parseIPv6Chars addr with
      | some ip =>
        match parsePrefixNum maskPart with
        | some p => if p ≤ 128 then some (.v6 (ip / 2 ^ (128 - p) * 2 ^ (128 - p)) p) else none
        | none => none
      | none => none

/-- String-level wrapper of the net.ParseCIDR model. -/
def goParseCIDR (s : String) : Option IPNetwork :=
  goParseCIDRChars s.data

/-! ## strconv and math models for the Range Parser -/

/-- Decimal digit run as required by strconv.ParseInt: nonempty and digits
only (leading zeroes are accepted by strconv). -/
def parseDecChars (cs : List Char) : Option Nat :=
  if cs.isEmpty then none
  else if !(cs.all Char.isDigit) then none
  else some (digitsVal cs)

/-- Model of strconv.ParseInt(s, 10, 64): optional sign, decimal digits, and
a 64-bit signed range check. -/
def parseInt64 (s : String) : Option Int :=
  match s.data with
  | '+' :: rest =>
    match parseDecChars rest with
    | some n => if n ≤ 2 ^ 63 - 1 then some (Int.ofNat n) else none
    | none => none
  | '-' :: rest =>
    match parseDecChars rest with
    | some n => if n ≤ 2 ^ 63 then some (-(Int.ofNat n)) else none
    | none => none
  | cs =>
    match parseDecChars cs with
    | some n => if n ≤ 2 ^ 63 - 1 then some (Int.ofNat n) else none
    | none => none

/-- Model of strconv.Atoi on a 64-bit platform: same as ParseInt(s, 10, 64). -/
def parseAtoi (s : String) : Option Int :=
  parseInt64 s

/-- Floor of the binary logarithm, by fueled halving; with fuel at least the
bit length of n this equals the mathematical floor of log2 n for 1 ≤ n. -/
def log2Fuel : Nat → Nat → Nat
  | 0, _ => 0
  | fuel + 1, n => if 2 ≤ n then log2Fuel fuel (n / 2) + 1 else 0

/-- Model of the Go expression int(math.Log2(float64(v))) as used by
parseIPRange.  For 1 ≤ v below 2 ^ 48 the float64 computation is exact enough
that truncation toward zero equals the integer binary logarithm floor, and
math.Log2 is exact on powers of two, so the model is the floor of log2 (the
64 units of fuel cover every 64-bit value).  For v ≤ 0 the float value is NaN
or negative infinity and the Go conversion to int is the minimum int64 on the
supported targets; any such value makes the subsequent prefix length invalid,
so the exact sentinel is irrelevant downstream. -/
def goLog2Int (v : Int) : Int :=
  if 0 < v then Int.ofNat (log2Fuel 64 v.toNat) else -(2 ^ 63)

/-! ## Data model (internal/model/models.go) -/

/-- Model of model.IPRange: the parsed CIDR network, the owning country code
and the address family (database id omitted; it is never assigned in the
embedded code paths). -/
structure IPRange where
  network : IPNetwork
  countryCode : String
  version : Nat
deriving DecidableEq, Repr

/-- Model of model.IPResponse. -/
structure IPResponse where
  ip : String
  countryCode : String
deriving DecidableEq, Repr

/-- Model of service.RIRStats. -/
structure RIRStats where
  ipv4Count : Nat
  ipv6Count : Nat
  skippedCount : Nat
  parseErrors : Nat
deriving DecidableEq, Repr

/-- The zero value of RIRStats. -/
def RIRStats.zero : RIRStats := ⟨0, 0, 0, 0⟩

/-! ## Range Parser (rir_service.go parseIPRange and parseCIDR) -/

/-- Model of the repository helper parseCIDR(ip, prefixLen): format the CIDR
string with Sprintf and hand it to net.ParseCIDR.  A negative prefix length
formats with a minus sign and fails the decimal prefix parse, exactly as in
Go. -/
def parseCIDR (ip : String) (prefixLen : Int) : Option IPNetwork :=
  goParseCIDRChars (ip.data ++ '/' :: (toString prefixLen).data)

/-- Outcome of parseIPRange.  The Go function returns (model.IPRange, error);
the extra nilDeref outcome marks the path that dereferences the nil network
pointer after the family switch matched neither case, which would panic at
run time. -/
inductive ParseOutcome where
  | ok (r : IPRange) : ParseOutcome
  | fail (msg : String) : ParseOutcome
  | nilDeref : ParseOutcome
deriving DecidableEq, Repr

/-- Model of RIRService.parseIPRange.  Fields are read positionally from the
pipe-split line; the caller guarantees at least 7 fields.  The IPv4 branch
parses field 5 as a 64-bit integer and computes the prefix length as
32 - int(math.Log2(value)) with no power-of-two check; the IPv6 branch uses
field 5 directly as the prefix length.  Error messages abbreviate the Go
library error text; no claim inspects it. -/
def parseIPRange (parts : List String) : ParseOutcome :=
  let countryCode := parts.getD 1 ""
  let startIP := parts.getD 3 ""
  match parts.getD 2 "" with
  | "ipv4" =>
    match parseInt64 (parts.getD 4 "") with
    | none => .fail "invalid syntax"
    | some value =>
      let prefixLen : Int := 32 - goLog2Int value
      match parseCIDR startIP prefixLen with
      | none => .fail "invalid CIDR address"
      | some network => .ok ⟨network, countryCode, 4⟩
  | "ipv6" =>
    match parseAtoi (parts.getD 4 "") with
    | none => .fail "invalid syntax"
    | some prefixLen =>
      match parseCIDR startIP prefixLen with
      | none => .fail "invalid CIDR address"
      | some network => .ok ⟨network, countryCode, 6⟩
  | _ => .nilDeref

/-! ## Feed Fetcher (rir_service.go fetchWithTimeout and FetchIPRanges) -/

/-- One line of the scan loop body of fetchWithTimeout: classify the line,
then parse it, accumulating ranges and statistics.  The nilDeref outcome of
parseIPRange is unreachable here because the family filter runs first (proved
separately); Go would panic on it, and the accumulator is returned unchanged
in the model. -/
def lineStep (acc : List IPRange × RIRStats) (line : String) : List IPRange × RIRStats :=
  let ranges := acc.1
  let st := acc.2
  if line.data.head? == some '#' || line.data.isEmpty then
    (ranges, ⟨st.ipv4Count, st.ipv6Count, st.skippedCount + 1, st.parseErrors⟩)
  else
    let parts := goSplit '|' line
    if parts.length < 7 then
      (ranges, ⟨st.ipv4Count, st.ipv6Count, st.skippedCount + 1, st.parseErrors⟩)
    else if parts.getD 1 "" == "*" ||
        (parts.getD 6 "" != "allocated" && parts.getD 6 "" != "assigned") then
      (ranges, ⟨st.ipv4Count, st.ipv6Count, st.skippedCount + 1, st.parseErrors⟩)
    else if parts.getD 2 "" != "ipv4" && parts.getD 2 "" != "ipv6" then
      (ranges, ⟨st.ipv4Count, st.ipv6Count, st.skippedCount + 1, st.parseErrors⟩)
    else
      match parseIPRange parts with
      | .fail _ =>
        (ranges, ⟨st.ipv4Count, st.ipv6Count, st.skippedCount, st.parseErrors + 1⟩)
      | .ok r =>
        if r.version == 4 then
          (ranges ++ [r], ⟨st.ipv4Count + 1, st.ipv6Count, st.skippedCount, st.parseErrors⟩)
        else
          (ranges ++ [r], ⟨st.ipv4Count, st.ipv6Count + 1, st.skippedCount, st.parseErrors⟩)
      | .nilDeref => (ranges, st)

/-- The scan loop of fetchWithTimeout over the lines of the response body. -/
def processLines (lines : List String) : List IPRange × RIRStats :=
  lines.foldl lineStep ([], RIRStats.zero)

/-- Oracle for one HTTP fetch attempt: the request construction and transport
errors, the response status, the lines delivered by the line scanner before it
stopped, and the terminal scanner error (a transport failure mid-stream or an
over-long line), observed after the loop. -/
structure HTTPAttempt where
  reqError : Option String
  doError : Option String
  statusCode : Nat
  bodyLines : List String
  scanError : Option String
deriving DecidableEq, Repr

/-- Model of RIRService.fetchWithTimeout: fail on request construction error,
transport error or non-200 status; otherwise scan and parse all lines; a
scanner error after the loop discards the parsed ranges and fails.  The Go
function returns ([]model.IPRange, RIRStats, error). -/
def fetchWithTimeout (att : HTTPAttempt) : List IPRange × RIRStats × Option String :=
  match att.reqError with
  | some e => ([], RIRStats.zero, some ("creating request: " ++ e))
  | none =>
    match att.doError with
    | some e => ([], RIRStats.zero, some ("fetching RIR data: " ++ e))
    | none =>
      if att.statusCode ≠ 200 then
        ([], RIRStats.zero, some ("unexpected status code: " ++ toString att.statusCode))
      else
        let parsed := processLines att.bodyLines
        match att.scanError with
        | some e => ([], parsed.2, some ("reading RIR data: " ++ e))
        | none => (parsed.1, parsed.2, none)

/-- Result of the retry loop of FetchIPRanges: the returned triple, the
number of fetch attempts actually made, and the sleeps performed between
attempts, in seconds. -/
structure FetchOutcome where
  ranges : List IPRange
  stats : RIRStats
  error : Option String
  calls : Nat
  sleeps : List Nat
deriving Repr

/-- The retry loop body of FetchIPRanges: before every attempt other than the
first, sleep attempt * 5 seconds; return on the first success; after the last
failed attempt return the last error annotated with the attempt count.  The
stats returned on exhaustion are the zero value of the outer stats variable:
the per-attempt stats are bound by a short variable declaration inside the
loop and never escape it. -/
def fetchLoop (env : Nat → List IPRange × RIRStats × Option String) :
    Nat → Nat → Option String → FetchOutcome
  | 0, _, lastErr =>
    ⟨[], RIRStats.zero,
      some ("failed after 3 attempts: " ++ lastErr.getD ""), 0, []⟩
  | remaining + 1, attempt, _ =>
    let sl := if 0 < attempt then [attempt * 5] else []
    match env attempt with
    | (ranges, stats, none) => ⟨ranges, stats, none, 1, sl⟩
    | (_, _, some e) =>
      let rest := fetchLoop env remaining (attempt + 1) (some e)
      ⟨rest.ranges, rest.stats, rest.error, rest.calls + 1, sl ++ rest.sleeps⟩

/-- Model of RIRService.FetchIPRanges with maxRetries = 3, over an oracle
giving the outcome of each attempt. -/
def fetchIPRanges (env : Nat → List IPRange × RIRStats × Option String) : FetchOutcome :=
  fetchLoop env 3 0 none

/-! ## Refresh Coordinator (ip_service.go UpdateIPRanges)

The Range Store is modelled as the list of ranges it currently holds.
ClearIPRanges is a TRUNCATE: on success the store is empty, on failure it is
unchanged.  SaveIPRanges runs in a single transaction: on success the store
holds exactly the inserted ranges, on failure the transaction rolls back and
the store keeps the state left by the preceding clear.  The outcome of each
external call is an oracle field. -/

/-- Oracle for one refresh cycle: the per-source fetch results in
configuration order, and the outcomes of the clear, bulk-insert and tier-2
cache rebuild calls. -/
structure UpdateEnv where
  fetchResults : List (List IPRange × RIRStats × Option String)
  clearError : Option String
  saveError : Option String
  cacheError : Option String
deriving Repr

/-- The fetch aggregation loop of UpdateIPRanges: append the ranges of every
successful source, collect the errors of the failed ones. -/
def aggregateRanges : List (List IPRange × RIRStats × Option String) →
    List IPRange × List String
  | [] => ([], [])
  | (rs, _, none) :: t =>
    let rest := aggregateRanges t
    (rs ++ rest.1, rest.2)
  | (_, _, some e) :: t =>
    let rest := aggregateRanges t
    (rest.1, e :: rest.2)

/-- Result of one refresh cycle: the store contents afterward, whether the
tier-2 cache rebuild was invoked, and the returned error. -/
structure UpdateOutcome where
  store : List IPRange
  cacheRebuilt : Bool
  error : Option String
deriving DecidableEq, Repr

/-- Model of IPService.UpdateIPRanges over the previous store contents: if no
ranges were aggregated the cycle fails with the store untouched; otherwise
clear the store (failure leaves it untouched), bulk-insert the aggregate
(failure rolls the insert back, leaving the cleared, empty store), then
rebuild the tier-2 cache, whose failure is logged but does not fail the
cycle. -/
def updateIPRanges (env : UpdateEnv) (store : List IPRange) : UpdateOutcome :=
  let allRanges := (aggregateRanges env.fetchResults).1
  if allRanges.isEmpty then
    ⟨store, false, some "no IP ranges fetched"⟩
  else
    match env.clearError with
    | some e => ⟨store, false, some ("clearing existing IP ranges: " ++ e)⟩
    | none =>
      match env.saveError with
      | some e => ⟨[], false, some e⟩
      | none => ⟨allRanges, true, none⟩

/-! ## Resolver (ip_service.go LookupIP)

The cache and repository are interfaces in Go; their responses are oracle
functions returning (value, error) pairs.  Addresses are modelled by their
IPv4 numeric value; net.ParseIP is modelled by the dotted-quad parser (the
IPv6 textual forms accepted by Go do not occur in any claim). -/

/-- String-level model of net.ParseIP restricted to IPv4 dotted-quad form. -/
def goParseIP (s : String) : Option Nat :=
  parseIPv4Chars s.data

/-- Oracle for one lookup: the tier-1 read keyed by the literal string, the
tier-2 read and the store query keyed by the parsed address. -/
structure LookupEnv where
  getCountry : String → String × Option String
  getCachedRange : Nat → String × Option String
  findCountryForIP : Nat → String × Option String

/-- Model of IPService.LookupIP.  Returns the Go result ((response, error) as
an Except) together with the trace of tier-1 cache writes attempted via
SetCountry, in order.  A SetCountry failure is only logged, so its outcome
does not appear in the state. -/
def lookupIP (env : LookupEnv) (ipStr : String) :
    Except String IPResponse × List (String × String) :=
  let t1 := env.getCountry ipStr
  if t1.2 = none ∧ t1.1 ≠ "" then
    (.ok ⟨ipStr, t1.1⟩, [])
  else
    match goParseIP ipStr with
    | none => (.error ("invalid IP address: " ++ ipStr), [])
    | some ip =>
      let t2 := env.getCachedRange ip
      if t2.2 = none ∧ t2.1 ≠ "" then
        (.ok ⟨ipStr, t2.1⟩, [(ipStr, t2.1)])
      else
        match env.findCountryForIP ip with
        | (_, some e) => (.error e, [])
        | (countryCode, none) =>
          if countryCode ≠ "ZZ" then
            (.ok ⟨ipStr, countryCode⟩, [(ipStr, countryCode)])
          else
            (.ok ⟨ipStr, countryCode⟩, [])

/-! ## Tier-2 range cache read (repository/redis.go GetCachedRange)

The Redis sorted set is modelled as a list of (score, member) pairs with
members unique; ZREVRANGEBYSCORE with Min 0, Max ipInt, Count 1 returns the
member with the greatest score not above ipInt, breaking score ties by the
lexicographically greatest member, or nothing. -/

/-- Model of repository.ipToInt restricted to IPv4: the big-endian 32-bit
value of the four octets (a non-IPv4 address maps to 0 in Go; that degenerate
path is outside every claim). -/
def ipToInt (ip : Nat) : Nat := ip % 2 ^ 32

/-- The member selected by ZREVRANGEBYSCORE(Min 0, Max maxScore, Count 1). -/
def zrevNearest (zset : List (Nat × String)) (maxScore : Nat) :
    Option (Nat × String) :=
  zset.foldl
    (fun best p =>
      if p.1 ≤ maxScore then
        match best with
        | none => some p
        | some q =>
          if q.1 < p.1 ∨ (q.1 = p.1 ∧ q.2 < p.2) then some p else some q
      else best)
    none

/-- Dotted-quad text of an IPv4 numeric value (net.IP.String for a 4-byte
address), as a character list. -/
def ipv4Chars (ip : Nat) : List Char :=
  (Nat.repr (ip / 16777216 % 256)).data ++
    ('.' :: ((Nat.repr (ip / 65536 % 256)).data ++
      ('.' :: ((Nat.repr (ip / 256 % 256)).data ++
        ('.' :: (Nat.repr (ip % 256)).data)))))

/-- Model of RedisRepository.GetCachedRange for an IPv4 address: find the
nearest member at or below the address value, split it as countryCode|mask,
rebuild a CIDR from the queried address string and the stored mask with
net.ParseCIDR, and return the country code when the resulting network
contains the address. -/
def getCachedRange (zset : List (Nat × String)) (ip : Nat) :
    String × Option String :=
  match zrevNearest zset (ipToInt ip) with
  | none => ("", none)
  | some (_, member) =>
    let parts := goSplit '|' member
    if parts.length ≠ 2 then ("", some "invalid range format")
    else
      let countryCode := parts.getD 0 ""
      let mask := parts.getD 1 ""
      match goParseCIDRChars (ipv4Chars ip ++ '/' :: mask.data) with
      | none => ("", some "invalid CIDR address")
      | some network =>
        if network.containsV4 ip then (countryCode, none) else ("", none)

/-! ## Helper lemmas on the parsing layer -/

theorem splitChar_of_not_mem {sep : Char} {l : List Char} (h : sep ∉ l) :
    splitChar sep l = [l] := by
  induction l with
  | nil => rfl
  | cons c cs ih =>
    have hc : c ≠ sep := fun hcs => h (hcs ▸ List.mem_cons_self c cs)
    have hm : sep ∉ cs := fun hmem => h (List.mem_cons_of_mem c hmem)
    simp only [splitChar, if_neg hc, ih hm]

theorem splitChar_append {sep : Char} {l1 : List Char} (l2 : List Char)
    (h : sep ∉ l1) :
    splitChar sep (l1 ++ sep :: l2) = l1 :: splitChar sep l2 := by
  induction l1 with
  | nil => simp [splitChar]
  | cons c cs ih =>
    have hc : c ≠ sep := fun hcs => h (hcs ▸ List.mem_cons_self c cs)
    have hm : sep ∉ cs := fun hmem => h (List.mem_cons_of_mem c hmem)
    have hrest := ih hm
    simp only [List.cons_append, splitChar, if_neg hc, List.append_eq, hrest]

theorem breakAtSlash_append {l1 : List Char} (l2 : List Char)
    (h : '/' ∉ l1) :
    breakAtSlash (l1 ++ '/' :: l2) = some (l1, l2) := by
  induction l1 with
  | nil => simp [breakAtSlash]
  | cons c cs ih =>
    have hc : c ≠ '/' := fun hcs => h (hcs ▸ List.mem_cons_self c cs)
    have hm : '/' ∉ cs := fun hmem => h (List.mem_cons_of_mem c hmem)
    simp only [List.cons_append, breakAtSlash, if_neg hc, List.append_eq, ih hm]

theorem breakAtSlash_split {l : List Char} {a b : List Char}
    (h : breakAtSlash l = some (a, b)) : l = a ++ '/' :: b := by
  induction l generalizing a b with
  | nil => simp [breakAtSlash] at h
  | cons c cs ih =>
    by_cases hc : c = '/'
    · subst hc
      have hr : breakAtSlash ('/' :: cs) = some ([], cs) := by
        simp [breakAtSlash]
      rw [hr] at h
      simp only [Option.some.injEq, Prod.mk.injEq] at h
      obtain ⟨ha, hb⟩ := h
      subst ha; subst hb
      rfl
    · simp only [breakAtSlash, if_neg hc] at h
      match hcs : breakAtSlash cs with
      | none => rw [hcs] at h; simp at h
      | some (a0, b0) =>
        rw [hcs] at h
        simp only [Option.some.injEq, Prod.mk.injEq] at h
        obtain ⟨ha, hb⟩ := h
        subst ha; subst hb
        rw [List.cons_append, ih hcs]

theorem parsePrefixNum_digits {cs : List Char} {p : Nat}
    (h : parsePrefixNum cs = some p) : cs.all Char.isDigit = true := by
  unfold parsePrefixNum at h
  split at h
  · exact absurd h (by simp)
  · split at h
    · exact absurd h (by simp)
    · rename_i h2
      simpa using h2

theorem parsePrefixNum_no_slash {cs : List Char} {p : Nat}
    (h : parsePrefixNum cs = some p) : '/' ∉ cs := by
  intro hmem
  have hall := parsePrefixNum_digits h
  rw [List.all_eq_true] at hall
  have := hall _ hmem
  simp [Char.isDigit] at this

theorem parsePrefixNum_of_mem_slash {cs : List Char} (h : '/' ∈ cs) :
    parsePrefixNum cs = none := by
  match hp : parsePrefixNum cs with
  | none => rfl
  | some p => exact absurd h (parsePrefixNum_no_slash hp)

set_option maxRecDepth 8000 in
theorem octet_repr_roundtrip :
    ∀ b : Nat, b < 256 →
      parseOctetChars (Nat.repr b).data = some b ∧
      ((Nat.repr b).data.all Char.isDigit) = true := by
  decide

theorem prefixNum_repr_roundtrip :
    ∀ p : Nat, p < 33 → parsePrefixNum (Nat.repr p).data = some p := by
  decide

theorem not_mem_repr_octet {c : Char} {b : Nat} (hb : b < 256)
    (hc : c.isDigit = false) : c ∉ (Nat.repr b).data := by
  intro hm
  have hall := (octet_repr_roundtrip b hb).2
  rw [List.all_eq_true] at hall
  have := hall _ hm
  rw [hc] at this
  exact absurd this (by simp)

theorem ipv4Chars_no_slash (ip : Nat) : '/' ∉ ipv4Chars ip := by
  have h1 : ip / 16777216 % 256 < 256 := Nat.mod_lt _ (by norm_num)
  have h2 : ip / 65536 % 256 < 256 := Nat.mod_lt _ (by norm_num)
  have h3 : ip / 256 % 256 < 256 := Nat.mod_lt _ (by norm_num)
  have h4 : ip % 256 < 256 := Nat.mod_lt _ (by norm_num)
  have g1 : '/' ∉ (Nat.repr (ip / 16777216 % 256)).data :=
    not_mem_repr_octet h1 (by decide)
  have g2 : '/' ∉ (Nat.repr (ip / 65536 % 256)).data :=
    not_mem_repr_octet h2 (by decide)
  have g3 : '/' ∉ (Nat.repr (ip / 256 % 256)).data :=
    not_mem_repr_octet h3 (by decide)
  have g4 : '/' ∉ (Nat.repr (ip % 256)).data :=
    not_mem_repr_octet h4 (by decide)
  intro hm
  unfold ipv4Chars at hm
  rcases List.mem_append.mp hm with hm | hm
  · exact g1 hm
  rcases List.mem_cons.mp hm with hm | hm
  · exact absurd hm (by decide)
  rcases List.mem_append.mp hm with hm | hm
  · exact g2 hm
  rcases List.mem_cons.mp hm with hm | hm
  · exact absurd hm (by decide)
  rcases List.mem_append.mp hm with hm | hm
  · exact g3 hm
  rcases List.mem_cons.mp hm with hm | hm
  · exact absurd hm (by decide)
  exact g4 hm

theorem parseIPv4Chars_roundtrip {ip : Nat} (h : ip < 2 ^ 32) :
    parseIPv4Chars (ipv4Chars ip) = some ip := by
  have h1 : ip / 16777216 % 256 < 256 := Nat.mod_lt _ (by norm_num)
  have h2 : ip / 65536 % 256 < 256 := Nat.mod_lt _ (by norm_num)
  have h3 : ip / 256 % 256 < 256 := Nat.mod_lt _ (by norm_num)
  have h4 : ip % 256 < 256 := Nat.mod_lt _ (by norm_num)
  have g1 : ('.' : Char) ∉ (Nat.repr (ip / 16777216 % 256)).data :=
    not_mem_repr_octet h1 (by decide)
  have g2 : ('.' : Char) ∉ (Nat.repr (ip / 65536 % 256)).data :=
    not_mem_repr_octet h2 (by decide)
  have g3 : ('.' : Char) ∉ (Nat.repr (ip / 256 % 256)).data :=
    not_mem_repr_octet h3 (by decide)
  have g4 : ('.' : Char) ∉ (Nat.repr (ip % 256)).data :=
    not_mem_repr_octet h4 (by decide)
  unfold parseIPv4Chars ipv4Chars
  rw [splitChar_append _ g1, splitChar_append _ g2, splitChar_append _ g3,
    splitChar_of_not_mem g4]
  dsimp only
  rw [(octet_repr_roundtrip _ h1).1, (octet_repr_roundtrip _ h2).1,
    (octet_repr_roundtrip _ h3).1, (octet_repr_roundtrip _ h4).1]
  simp only [Option.some.injEq]
  omega

theorem breakAtSlash_append_left {l1 a b : List Char} (l2 : List Char)
    (h : breakAtSlash l1 = some (a, b)) :
    breakAtSlash (l1 ++ l2) = some (a, b ++ l2) := by
  induction l1 generalizing a b with
  | nil => simp [breakAtSlash] at h
  | cons c cs ih =>
    by_cases hc : c = '/'
    · subst hc
      have hr : breakAtSlash ('/' :: cs) = some ([], cs) := by
        simp [breakAtSlash]
      rw [hr] at h
      simp only [Option.some.injEq, Prod.mk.injEq] at h
      obtain ⟨ha, hb⟩ := h
      subst ha; subst hb
      simp [breakAtSlash]
    · simp only [breakAtSlash, if_neg hc] at h
      match hcs : breakAtSlash cs with
      | none => rw [hcs] at h; simp at h
      | some (a0, b0) =>
        rw [hcs] at h
        simp only [Option.some.injEq, Prod.mk.injEq] at h
        obtain ⟨ha, hb⟩ := h
        subst ha; subst hb
        have := ih hcs
        simp only [List.cons_append, breakAtSlash, if_neg hc, List.append_eq, this]

theorem breakAtSlash_isSome_of_mem {l : List Char} (h : '/' ∈ l) :
    ∃ a b, breakAtSlash l = some (a, b) := by
  induction l with
  | nil => simp at h
  | cons c cs ih =>
    by_cases hc : c = '/'
    · subst hc
      exact ⟨[], cs, by simp [breakAtSlash]⟩
    · have hm : '/' ∈ cs := by
        rcases List.mem_cons.mp h with h1 | h1
        · exact absurd h1.symm hc
        · exact h1
      obtain ⟨a, b, hab⟩ := ih hm
      exact ⟨c :: a, b, by simp only [breakAtSlash, if_neg hc, hab]⟩

/-- Parsing the CIDR string built from an IPv4 dotted-quad address and a mask
that parses as a decimal prefix at most 32 yields the network whose base is
the queried address with host bits zeroed. -/
theorem goParseCIDR_v4_self {ip p : Nat} (hip : ip < 2 ^ 32)
    {mask : List Char} (hm : parsePrefixNum mask = some p) (hp : p ≤ 32) :
    goParseCIDRChars (ipv4Chars ip ++ '/' :: mask) =
      some (.v4 (ip / 2 ^ (32 - p) * 2 ^ (32 - p)) p) := by
  unfold goParseCIDRChars
  rw [breakAtSlash_append mask (ipv4Chars_no_slash ip)]
  dsimp only
  rw [parseIPv4Chars_roundtrip hip, hm]
  simp [hp]

/-- The reconstructed network always contains the address it was rebuilt
from: the containment check of GetCachedRange is vacuous whenever the mask
parses. -/
theorem containsV4_self_mask (ip p : Nat) :
    (IPNetwork.v4 (ip / 2 ^ (32 - p) * 2 ^ (32 - p)) p).containsV4 ip = true := by
  simp [IPNetwork.containsV4]

/-- Any network produced by the parseCIDR helper at a nonnegative prefix
length at most 32 carries exactly that prefix length. -/
theorem parseCIDR_prefixLen {s : String} {p : Nat} (hp : p ≤ 32)
    {net : IPNetwork} (h : parseCIDR s (Int.ofNat p) = some net) :
    net.prefixLen = p := by
  unfold parseCIDR at h
  have htos : (toString (Int.ofNat p)).data = (Nat.repr p).data := rfl
  rw [htos] at h
  have hmask : parsePrefixNum (Nat.repr p).data = some p :=
    prefixNum_repr_roundtrip p (by omega)
  by_cases hs : '/' ∈ s.data
  · obtain ⟨a, b, hab⟩ := breakAtSlash_isSome_of_mem hs
    have hfull := breakAtSlash_append_left ('/' :: (Nat.repr p).data) hab
    unfold goParseCIDRChars at h
    rw [hfull] at h
    dsimp only at h
    have hslash : '/' ∈ b ++ '/' :: (Nat.repr p).data := by
      rw [List.mem_append]
      exact Or.inr (List.mem_cons_self _ _)
    have hnone := parsePrefixNum_of_mem_slash hslash
    rcases h4 : parseIPv4Chars a with _ | ip4
    · rcases h6 : parseIPv6Chars a with _ | ip6
      · rw [h4, h6] at h; simp at h
      · rw [h4, h6, hnone] at h; simp at h
    · rw [h4, hnone] at h; simp at h
  · unfold goParseCIDRChars at h
    rw [breakAtSlash_append _ hs] at h
    dsimp only at h
    rcases h4 : parseIPv4Chars s.data with _ | ip4
    · rcases h6 : parseIPv6Chars s.data with _ | ip6
      · rw [h4, h6] at h; simp at h
      · rw [h4, h6, hmask] at h
        dsimp only at h
        have hple : p ≤ 128 := by omega
        rw [if_pos hple] at h
        simp only [Option.some.injEq] at h
        rw [← h]
        rfl
    · rw [h4, hmask] at h
      dsimp only at h
      rw [if_pos hp] at h
      simp only [Option.some.injEq] at h
      rw [← h]
      rfl

theorem log2Fuel_two_pow {fuel k : Nat} (h : k < fuel) :
    log2Fuel fuel (2 ^ k) = k := by
  induction fuel generalizing k with
  | zero => omega
  | succ f ih =>
    match k with
    | 0 => simp [log2Fuel]
    | k + 1 =>
      have h2 : 2 ≤ 2 ^ (k + 1) := by
        calc 2 = 2 ^ 1 := by norm_num
        _ ≤ 2 ^ (k + 1) := Nat.pow_le_pow_right (by norm_num) (by omega)
      have hdiv : 2 ^ (k + 1) / 2 = 2 ^ k := by
        rw [pow_succ, Nat.mul_div_cancel]
        norm_num
      simp only [log2Fuel, if_pos h2, hdiv, @ih k (by omega)]

/-- The Go expression int(math.Log2(float64(v))) on an exact power of two. -/
theorem goLog2Int_two_pow {k : Nat} (hk : k < 64) :
    goLog2Int (Int.ofNat (2 ^ k)) = Int.ofNat k := by
  unfold goLog2Int
  have hpos : 0 < Int.ofNat (2 ^ k) :=
    Int.ofNat_pos.mpr (pow_pos (by norm_num) k)
  rw [if_pos hpos]
  congr 1
  have ht : (Int.ofNat (2 ^ k)).toNat = 2 ^ k := rfl
  rw [ht, log2Fuel_two_pow hk]

/-! ## Claim C2 -/

/-- C2 counterexample: with the tier-2 cache holding only the range
10.0.0.0/8 for US (start value 167772160, stored mask 8), looking up
200.0.0.0 (value 3355443200) returns the country code US with no error, even
though the stored range does not contain the address; the claim that a
country code is returned only when the address falls inside the stored range
is false. -/
theorem tier2_hit_outside_stored_range :
    getCachedRange [(167772160, "US|8")] 3355443200 = ("US", none) ∧
      (IPNetwork.v4 167772160 8).containsV4 3355443200 = false :=
  ⟨by decide, by decide⟩

/-- C2 (amended): the tier-2 lookup finds the greatest indexed start value at
or below the queried address, but rebuilds the CIDR from the queried address
itself and the stored mask, so the containment verification is vacuous:
whenever the nearest-below member splits as countryCode|mask with a mask that
parses as a decimal prefix of at most 32 bits, the stored country code is
returned, regardless of whether the queried address falls inside the stored
range. -/
theorem tier2_containment_check_vacuous (zset : List (Nat × String))
    (ip sc p : Nat) (member cc maskStr : String)
    (hip : ip < 2 ^ 32)
    (hfind : zrevNearest zset (ipToInt ip) = some (sc, member))
    (hsplit : goSplit '|' member = [cc, maskStr])
    (hmask : parsePrefixNum maskStr.data = some p)
    (hp : p ≤ 32) :
    getCachedRange zset ip = (cc, none) := by
  unfold getCachedRange
  rw [hfind]
  dsimp only
  rw [hsplit]
  rw [if_neg (by simp)]
  simp only [List.getD_cons_zero, List.getD_cons_succ]
  rw [goParseCIDR_v4_self hip hmask hp]
  dsimp only
  rw [if_pos]
  exact containsV4_self_mask ip p

/-- C2 witness for the amended theorem. -/
theorem tier2_containment_check_vacuous_witness :
    getCachedRange [(0, "FR|16")] 5 = ("FR", none) :=
  tier2_containment_check_vacuous [(0, "FR|16")] 5 0 16 "FR|16" "FR" "16"
    (by decide) (by decide) (by decide) (by decide) (by decide)

/-! ## Claim C3 -/

/-- C3 counterexample: the IPv4 size 3 is not a power of two, yet the Range
Parser reports no parse error: it silently truncates log2(3) to 1 and
produces the network 192.168.0.0/31. -/
theorem non_power_of_two_size_parses_ok :
    parseIPRange ["2", "US", "ipv4", "192.168.0.0", "3", "20100101", "allocated"] =
      .ok ⟨.v4 3232235520 31, "US", 4⟩ := by
  decide

/-- C3 (amended): the spec scenario holds — size 65536 with start 192.168.0.0
yields 192.168.0.0/16 — and for every power-of-two count 2 ^ k (k ≤ 32) a
successful parse produces prefix length 32 - k with family 4; but a
non-power-of-two count is never surfaced as a parse error by itself: after
the size parses as a 64-bit integer, the only possible parse failure of the
IPv4 branch is an invalid CIDR built from the (possibly truncated) prefix. -/
theorem ipv4_size_prefix_computation :
    (parseIPRange ["2", "US", "ipv4", "192.168.0.0", "65536", "20100101", "allocated"] =
      .ok ⟨.v4 3232235520 16, "US", 4⟩) ∧
    (∀ parts : List String, ∀ k : Nat, ∀ r : IPRange, k ≤ 32 →
      parts.getD 2 "" = "ipv4" →
      parseInt64 (parts.getD 4 "") = some (Int.ofNat (2 ^ k)) →
      parseIPRange parts = .ok r →
      r.version = 4 ∧ r.network.prefixLen = 32 - k) ∧
    (∀ parts : List String, ∀ v : Int, ∀ m : String,
      parts.getD 2 "" = "ipv4" →
      parseInt64 (parts.getD 4 "") = some v →
      parseIPRange parts = .fail m →
      m = "invalid CIDR address") := by
  refine ⟨by decide, ?_, ?_⟩
  · intro parts k r hk hfam hval hok
    unfold parseIPRange at hok
    rw [hfam] at hok
    dsimp only at hok
    rw [hval] at hok
    dsimp only at hok
    rw [goLog2Int_two_pow (by omega)] at hok
    have hsub : (32 : Int) - Int.ofNat k = Int.ofNat (32 - k) := by
      simp only [Int.ofNat_eq_natCast]
      omega
    rw [hsub] at hok
    rcases hc : parseCIDR (parts.getD 3 "") (Int.ofNat (32 - k)) with _ | net
    · rw [hc] at hok; simp at hok
    · rw [hc] at hok
      simp only [ParseOutcome.ok.injEq] at hok
      have hnet := parseCIDR_prefixLen (by omega) hc
      rw [← hok]
      exact ⟨rfl, hnet⟩
  · intro parts v m hfam hval hfail
    unfold parseIPRange at hfail
    rw [hfam] at hfail
    dsimp only at hfail
    rw [hval] at hfail
    dsimp only at hfail
    rcases hc : parseCIDR (parts.getD 3 "") (32 - goLog2Int v) with _ | net
    · rw [hc] at hfail
      simp only [ParseOutcome.fail.injEq] at hfail
      exact hfail.symm
    · rw [hc] at hfail; simp at hfail

/-- C3 witness for the amended theorem, at the spec scenario line. -/
theorem ipv4_size_prefix_computation_witness :
    (⟨IPNetwork.v4 3232235520 16, "US", 4⟩ : IPRange).version = 4 ∧
    (⟨IPNetwork.v4 3232235520 16, "US", 4⟩ : IPRange).network.prefixLen = 32 - 16 :=
  ipv4_size_prefix_computation.2.1
    ["2", "US", "ipv4", "192.168.0.0", "65536", "20100101", "allocated"] 16
    ⟨IPNetwork.v4 3232235520 16, "US", 4⟩
    (by omega) (by decide) (by decide) (by decide)

/-! ## Claim C9 -/

/-- C9: whenever the family field (field index 2) is ipv4 or ipv6 — the
precondition established by the line filter of fetchWithTimeout, which also
guarantees at least seven fields — parseIPRange never reaches the nil network
dereference: every path either returns an error first or has assigned the
network from a successful CIDR parse. -/
theorem parseIPRange_no_nil_deref (parts : List String)
    (_hlen : 7 ≤ parts.length)
    (hfam : parts.getD 2 "" = "ipv4" ∨ parts.getD 2 "" = "ipv6") :
    parseIPRange parts ≠ .nilDeref := by
  rcases hfam with h | h
  · unfold parseIPRange
    rw [h]
    dsimp only
    rcases parseInt64 (parts.getD 4 "") with _ | v
    · simp
    · dsimp only
      rcases parseCIDR (parts.getD 3 "") (32 - goLog2Int v) with _ | net <;> simp
  · unfold parseIPRange
    rw [h]
    dsimp only
    rcases parseAtoi (parts.getD 4 "") with _ | v
    · simp
    · dsimp only
      rcases parseCIDR (parts.getD 3 "") v with _ | net <;> simp

/-- C9 witness at the spec scenario IPv6 line. -/
theorem parseIPRange_no_nil_deref_witness :
    parseIPRange ["2", "CA", "ipv6", "2001:db8::", "32", "20100101", "allocated"] ≠
      .nilDeref :=
  parseIPRange_no_nil_deref
    ["2", "CA", "ipv6", "2001:db8::", "32", "20100101", "allocated"]
    (by decide) (Or.inr (by decide))

/-! ## Claim C4 -/

/-- C4 counterexample: when the tier-2 range cache answers ZZ without error,
LookupIP writes ZZ into tier 1 — the write-through after a tier-2 hit is not
guarded by the unknown-country check, so the reserved sentinel can be cached. -/
theorem tier2_zz_written_to_tier1 :
    (lookupIP ⟨fun _ => ("", none), fun _ => ("ZZ", none), fun _ => ("", none)⟩
        "8.8.8.8").2 = [("8.8.8.8", "ZZ")] := by
  decide

/-- C4 (amended): the store-fallback path never caches the ZZ sentinel, but
the tier-2 hit path writes its result through to tier 1 unconditionally: a
cache write of ZZ happens exactly when the tier-2 read returned ZZ with no
error, and it is keyed by the looked-up string. -/
theorem zz_cache_writes_only_from_tier2_hit (env : LookupEnv) (s k v : String)
    (hmem : (k, v) ∈ (lookupIP env s).2) (hzz : v = "ZZ") :
    k = s ∧ ∃ ip, goParseIP s = some ip ∧ env.getCachedRange ip = ("ZZ", none) := by
  subst hzz
  unfold lookupIP at hmem
  by_cases h1 : (env.getCountry s).2 = none ∧ (env.getCountry s).1 ≠ ""
  · rw [if_pos h1] at hmem
    simp at hmem
  · rw [if_neg h1] at hmem
    rcases hp : goParseIP s with _ | ip
    · rw [hp] at hmem
      simp at hmem
    · rw [hp] at hmem
      dsimp only at hmem
      by_cases h2 : (env.getCachedRange ip).2 = none ∧ (env.getCachedRange ip).1 ≠ ""
      · rw [if_pos h2] at hmem
        simp only [List.mem_singleton, Prod.mk.injEq] at hmem
        refine ⟨hmem.1, ip, rfl, ?_⟩
        have hcc := hmem.2
        rcases hval : env.getCachedRange ip with ⟨c, er⟩
        rw [hval] at h2 hcc
        simp only at hcc h2
        rw [← hcc, h2.1]
      · rw [if_neg h2] at hmem
        rcases hr : env.findCountryForIP ip with ⟨cc, er⟩
        rw [hr] at hmem
        rcases er with _ | e
        · dsimp only at hmem
          by_cases hcc : cc ≠ "ZZ"
          · rw [if_pos hcc] at hmem
            simp only [List.mem_singleton, Prod.mk.injEq] at hmem
            exact absurd hmem.2.symm hcc
          · rw [if_neg hcc] at hmem
            simp at hmem
        · simp at hmem

/-- C4 witness for the amended theorem. -/
theorem zz_cache_writes_only_from_tier2_hit_witness :
    "1.2.3.4" = "1.2.3.4" ∧
    ∃ ip, goParseIP "1.2.3.4" = some ip ∧
      (fun _ : Nat => ("ZZ", (none : Option String))) ip = ("ZZ", none) :=
  zz_cache_writes_only_from_tier2_hit
    ⟨fun _ => ("", some "redis down"), fun _ => ("ZZ", none), fun _ => ("", none)⟩
    "1.2.3.4" "1.2.3.4" "ZZ" (by decide) rfl

/-! ## Claim C6 -/

/-- C6: for a lookup, a tier-1 read error makes the result identical to a
tier-1 miss, a tier-2 read error (on a parseable address) makes the result
identical to a tier-2 miss, and on a parseable address the only error ever
surfaced to the caller is the error of the Range Store query of the final
fallback step. -/
theorem lookup_cache_errors_fall_through :
    (∀ env : LookupEnv, ∀ s c e, env.getCountry s = (c, some e) →
      lookupIP env s =
        lookupIP ⟨fun _ => ("", none), env.getCachedRange, env.findCountryForIP⟩ s) ∧
    (∀ env : LookupEnv, ∀ s ip c e, goParseIP s = some ip →
      env.getCachedRange ip = (c, some e) →
      lookupIP env s =
        lookupIP ⟨env.getCountry, fun _ => ("", none), env.findCountryForIP⟩ s) ∧
    (∀ env : LookupEnv, ∀ s ip e, goParseIP s = some ip →
      (lookupIP env s).1 = .error e →
      ∃ c, env.findCountryForIP ip = (c, some e)) := by
  refine ⟨?_, ?_, ?_⟩
  · intro env s c e hc
    unfold lookupIP
    rw [hc]
    dsimp only
    rw [if_neg (by simp), if_neg (by simp)]
  · intro env s ip c e hp ht2
    unfold lookupIP
    dsimp only
    by_cases h1 : (env.getCountry s).2 = none ∧ (env.getCountry s).1 ≠ ""
    · rw [if_pos h1, if_pos h1]
    · rw [if_neg h1, if_neg h1]
      rw [hp]
      dsimp only
      rw [ht2]
      rw [if_neg (by simp), if_neg (by simp)]
  · intro env s ip e hp hres
    unfold lookupIP at hres
    by_cases h1 : (env.getCountry s).2 = none ∧ (env.getCountry s).1 ≠ ""
    · rw [if_pos h1] at hres
      simp at hres
    · rw [if_neg h1] at hres
      rw [hp] at hres
      dsimp only at hres
      by_cases h2 : (env.getCachedRange ip).2 = none ∧ (env.getCachedRange ip).1 ≠ ""
      · rw [if_pos h2] at hres
        simp at hres
      · rw [if_neg h2] at hres
        rcases hr : env.findCountryForIP ip with ⟨cc, er⟩
        rw [hr] at hres
        rcases er with _ | e0
        · dsimp only at hres
          by_cases hcc : cc ≠ "ZZ"
          · rw [if_pos hcc] at hres
            simp at hres
          · rw [if_neg hcc] at hres
            simp at hres
        · dsimp only at hres
          simp only [Except.error.injEq] at hres
          exact ⟨cc, by rw [hres]⟩

/-- C6 witness for the fall-through theorem. -/
theorem lookup_cache_errors_fall_through_witness :
    lookupIP ⟨fun _ => ("", some "redis down"), fun _ => ("", none),
        fun _ => ("US", none)⟩ "8.8.8.8" =
      lookupIP ⟨fun _ => ("", none), fun _ => ("", none),
        fun _ => ("US", none)⟩ "8.8.8.8" :=
  lookup_cache_errors_fall_through.1
    ⟨fun _ => ("", some "redis down"), fun _ => ("", none), fun _ => ("US", none)⟩
    "8.8.8.8" "" "redis down" rfl

/-! ## Claim C10 -/

/-- C10: the tier-1 cache is consulted by literal string before the address
is parsed: the string "invalid" is not a parseable address, yet a lookup of
it succeeds with the country code held by tier 1 for that exact string; the
invalid-address error would be raised only after a tier-1 miss. -/
theorem tier1_hit_before_parse :
    goParseIP "invalid" = none ∧
    (lookupIP ⟨fun _ => ("US", none), fun _ => ("", none), fun _ => ("", none)⟩
        "invalid").1 = .ok ⟨"invalid", "US"⟩ :=
  ⟨by decide, by rfl⟩

/-! ## Claim C8 -/

/-- C8: a fetch attempt never returns ranges together with an error — any
request, transport, status or mid-stream scanner failure (including an
over-long line) yields an empty range list — and a successful attempt returns
exactly the ranges and statistics parsed from all lines of the body. -/
theorem fetch_attempt_all_or_nothing (att : HTTPAttempt) :
    ((fetchWithTimeout att).2.2 ≠ none → (fetchWithTimeout att).1 = []) ∧
    ((fetchWithTimeout att).2.2 = none →
      fetchWithTimeout att =
        ((processLines att.bodyLines).1, (processLines att.bodyLines).2, none)) := by
  rcases att with ⟨re, de, st, ls, se⟩
  rcases re with _ | e1 <;> rcases de with _ | e2 <;> rcases se with _ | e3 <;>
    by_cases hst : st = 200 <;>
      simp [fetchWithTimeout, hst]

/-- C8 witness: a 500 status yields an error and no ranges. -/
theorem fetch_attempt_all_or_nothing_witness :
    (fetchWithTimeout ⟨none, none, 500, [], none⟩).1 = [] :=
  (fetch_attempt_all_or_nothing ⟨none, none, 500, [], none⟩).1 (by decide)

/-! ## Claim C7 -/

/-- C7: the retry loop of FetchIPRanges makes at most 3 fetch attempts,
sleeping 5 then 10 seconds before the second and third attempts; the first
successful attempt is returned immediately with its ranges and stats, and if
all three attempts fail the result is the last error annotated with the
attempt count. -/
theorem fetch_retry_contract (env : Nat → List IPRange × RIRStats × Option String) :
    (fetchIPRanges env).calls ≤ 3 ∧
    (fetchIPRanges env).sleeps = List.take ((fetchIPRanges env).calls - 1) [5, 10] ∧
    (∀ i rs st, i < 3 → (∀ j, j < i → (env j).2.2 ≠ none) → env i = (rs, st, none) →
      fetchIPRanges env = ⟨rs, st, none, i + 1, List.take i [5, 10]⟩) ∧
    (∀ eLast, (env 0).2.2 ≠ none → (env 1).2.2 ≠ none → (env 2).2.2 = some eLast →
      fetchIPRanges env =
        ⟨[], RIRStats.zero, some ("failed after 3 attempts: " ++ eLast), 3, [5, 10]⟩) := by
  rcases h0 : env 0 with ⟨r0, s0, e0⟩
  rcases e0 with _ | x0
  · have hfe : fetchIPRanges env = ⟨r0, s0, none, 1, []⟩ := by
      simp [fetchIPRanges, fetchLoop, h0]
    refine ⟨by rw [hfe]; try simp, by rw [hfe]; rfl, ?_, ?_⟩
    · intro i rs st hi hprev hsucc
      match i with
      | 0 =>
        rw [h0] at hsucc
        simp only [Prod.mk.injEq] at hsucc
        rw [hfe, hsucc.1, hsucc.2.1]
        try rfl
      | 1 =>
        have := hprev 0 (by omega)
        rw [h0] at this
        simp at this
      | 2 =>
        have := hprev 0 (by omega)
        rw [h0] at this
        simp at this
    · intro eLast hne0 _ _
      simp at hne0
  · rcases h1 : env 1 with ⟨r1, s1, e1⟩
    rcases e1 with _ | x1
    · have hfe : fetchIPRanges env = ⟨r1, s1, none, 2, [5]⟩ := by
        simp [fetchIPRanges, fetchLoop, h0, h1]
      refine ⟨by rw [hfe]; try simp, by rw [hfe]; rfl, ?_, ?_⟩
      · intro i rs st hi hprev hsucc
        match i with
        | 0 =>
          rw [h0] at hsucc
          simp at hsucc
        | 1 =>
          rw [h1] at hsucc
          simp only [Prod.mk.injEq] at hsucc
          rw [hfe, hsucc.1, hsucc.2.1]
          try rfl
        | 2 =>
          have := hprev 1 (by omega)
          rw [h1] at this
          simp at this
      · intro eLast _ hne1 _
        simp at hne1
    · rcases h2 : env 2 with ⟨r2, s2, e2⟩
      rcases e2 with _ | x2
      · have hfe : fetchIPRanges env = ⟨r2, s2, none, 3, [5, 10]⟩ := by
          simp [fetchIPRanges, fetchLoop, h0, h1, h2]
        refine ⟨by rw [hfe]; try simp, by rw [hfe]; rfl, ?_, ?_⟩
        · intro i rs st hi hprev hsucc
          match i with
          | 0 =>
            rw [h0] at hsucc
            simp at hsucc
          | 1 =>
            rw [h1] at hsucc
            simp at hsucc
          | 2 =>
            rw [h2] at hsucc
            simp only [Prod.mk.injEq] at hsucc
            rw [hfe, hsucc.1, hsucc.2.1]
            try rfl
        · intro eLast _ _ hne2
          simp at hne2
      · have hfe : fetchIPRanges env =
            ⟨[], RIRStats.zero, some ("failed after 3 attempts: " ++ x2), 3, [5, 10]⟩ := by
          simp [fetchIPRanges, fetchLoop, h0, h1, h2]
        refine ⟨by rw [hfe]; try simp, by rw [hfe]; rfl, ?_, ?_⟩
        · intro i rs st hi hprev hsucc
          match i with
          | 0 =>
            rw [h0] at hsucc
            simp at hsucc
          | 1 =>
            rw [h1] at hsucc
            simp at hsucc
          | 2 =>
            rw [h2] at hsucc
            simp at hsucc
        · intro eLast _ _ hne2
          simp at hne2
          rw [hfe, hne2]

/-- C7 witness: three failing attempts exhaust the retries. -/
theorem fetch_retry_contract_witness :
    fetchIPRanges (fun _ => ([], RIRStats.zero, some "boom")) =
      ⟨[], RIRStats.zero, some ("failed after 3 attempts: " ++ "boom"), 3, [5, 10]⟩ :=
  (fetch_retry_contract (fun _ => ([], RIRStats.zero, some "boom"))).2.2.2
    "boom" (by decide) (by decide) (by decide)

/-! ## Claim C1 -/

/-- C1 counterexample: a refresh cycle in which the single source succeeds,
the clear succeeds, and the bulk insert fails leaves the Range Store empty:
the previous dataset (one range) is gone, so the replacement is not
all-or-nothing. -/
theorem failed_save_clears_store :
    updateIPRanges
        ⟨[([⟨.v4 167772160 8, "FR", 4⟩], RIRStats.zero, none)], none,
          some "disk full", none⟩
        [⟨.v4 0 16, "DE", 4⟩] =
      ⟨[], false, some "disk full"⟩ ∧
    ([] : List IPRange) ≠ [⟨.v4 0 16, "DE", 4⟩] :=
  ⟨by decide, by decide⟩

/-- C1 (amended): a failed refresh cycle retains the previous dataset only
when it fails before the store is cleared — no ranges aggregated, or the
clear itself failed; when the bulk insert fails after a successful clear, the
store is left empty, because the clear and the insert are separate store
operations rather than one atomic replacement. -/
theorem refresh_failure_store_state (env : UpdateEnv) (prev : List IPRange) :
    ((aggregateRanges env.fetchResults).1 = [] →
      updateIPRanges env prev = ⟨prev, false, some "no IP ranges fetched"⟩) ∧
    (∀ e, (aggregateRanges env.fetchResults).1 ≠ [] → env.clearError = some e →
      updateIPRanges env prev =
        ⟨prev, false, some ("clearing existing IP ranges: " ++ e)⟩) ∧
    (∀ e, (aggregateRanges env.fetchResults).1 ≠ [] → env.clearError = none →
      env.saveError = some e →
      updateIPRanges env prev = ⟨[], false, some e⟩) := by
  refine ⟨?_, ?_, ?_⟩
  · intro h
    unfold updateIPRanges
    rw [if_pos (by rw [h]; rfl)]
  · intro e hne hclear
    unfold updateIPRanges
    rw [if_neg (fun hc => hne (List.isEmpty_iff.mp hc))]
    rw [hclear]
  · intro e hne hclear hsave
    unfold updateIPRanges
    rw [if_neg (fun hc => hne (List.isEmpty_iff.mp hc))]
    rw [hclear]
    dsimp only
    rw [hsave]

/-- C1 witness for the amended theorem: a bulk-insert failure empties the
store. -/
theorem refresh_failure_store_state_witness :
    updateIPRanges
        ⟨[([⟨.v4 0 24, "GB", 4⟩], RIRStats.zero, none)], none, some "io error", none⟩
        [⟨.v4 0 8, "NL", 4⟩] =
      ⟨[], false, some "io error"⟩ :=
  (refresh_failure_store_state
      ⟨[([⟨.v4 0 24, "GB", 4⟩], RIRStats.zero, none)], none, some "io error", none⟩
      [⟨.v4 0 8, "NL", 4⟩]).2.2
    "io error" (by decide) (by decide) (by decide)

/-! ## Claim C5 -/

/-- C5 counterexample: a cycle whose single source succeeds but returns zero
ranges fails with no store mutation, even though not every source failed: the
gate is an empty aggregated range list, not all sources failing. -/
theorem empty_success_fails_cycle :
    (([([], RIRStats.zero, none)] :
        List (List IPRange × RIRStats × Option String)).all
      (fun f => f.2.2 == none)) = true ∧
    updateIPRanges ⟨[([], RIRStats.zero, none)], none, none, none⟩
        [⟨.v4 0 16, "DE", 4⟩] =
      ⟨[⟨.v4 0 16, "DE", 4⟩], false, some "no IP ranges fetched"⟩ :=
  ⟨by decide, by decide⟩

/-- C5 (amended): the coordinator clears the store and bulk-inserts the
aggregated set exactly when the aggregate is nonempty — and then a failure of
the tier-2 cache rebuild does not fail the cycle — while a cycle that
aggregates zero ranges (every source failed, or the successes were all empty)
fails with no store mutation. -/
theorem refresh_mutation_iff_nonempty_aggregate (env : UpdateEnv)
    (prev : List IPRange) :
    ((aggregateRanges env.fetchResults).1 = [] →
      updateIPRanges env prev = ⟨prev, false, some "no IP ranges fetched"⟩) ∧
    ((aggregateRanges env.fetchResults).1 ≠ [] → env.clearError = none →
      env.saveError = none →
      updateIPRanges env prev =
        ⟨(aggregateRanges env.fetchResults).1, true, none⟩) := by
  refine ⟨?_, ?_⟩
  · intro h
    unfold updateIPRanges
    rw [if_pos (by rw [h]; rfl)]
  · intro hne hclear hsave
    unfold updateIPRanges
    rw [if_neg (fun hc => hne (List.isEmpty_iff.mp hc))]
    rw [hclear]
    dsimp only
    rw [hsave]

/-- C5 witness for the amended theorem: one successful source with one range
mutates the store even though the cache rebuild fails. -/
theorem refresh_mutation_iff_nonempty_aggregate_witness :
    updateIPRanges
        ⟨[([⟨.v4 0 24, "SE", 4⟩], RIRStats.zero, none)], none, none,
          some "cache down"⟩ [] =
      ⟨(aggregateRanges [([⟨.v4 0 24, "SE", 4⟩], RIRStats.zero, none)]).1,
        true, none⟩ :=
  (refresh_mutation_iff_nonempty_aggregate
      ⟨[([⟨.v4 0 24, "SE", 4⟩], RIRStats.zero, none)], none, none,
        some "cache down"⟩ []).2
    (by decide) (by decide) (by decide)

end IpService
